import Mathlib

/-!
Shallow embedding of the stress-detection repository's core logic:

* `src/server/predict.py` — `StressPredictor.validate_input`, `StressPredictor.predict`,
  `StressPredictor._create_mock_model` (hyperparameters and synthetic-data generator);
* `src/ml_logic/preprocessing.py` — `preprocess_data`, `handle_missing_values`,
  `remove_outliers`, `augment_features`;
* `src/ml_logic/train.py` — the trained model's hyperparameters and
  `ModelTrainer.save_model`.

Python floats are embedded as exact rationals (`ℚ`); numpy 2-D arrays as lists of
rows (with an explicit column count where column indexing matters); Python dicts
of request features as association lists.
-/

namespace Swaraj

/-! ### Python scalar values and `float()` coercion -/

/-- A Python value as it can appear in a prediction-request mapping. -/
inductive PyVal where
  | int (z : ℤ)
  | float (q : ℚ)
  | bool (b : Bool)
  | str (s : String)
  | pynone
deriving DecidableEq, Repr

/-- Digits to a natural number, most significant first (`"75"` ↦ `75`). -/
def digitsToNat (cs : List Char) : ℕ :=
  cs.foldl (fun a c => a * 10 + (c.toNat - 48)) 0

/-- Every character is a decimal digit. -/
def allDigits (cs : List Char) : Bool :=
  cs.all Char.isDigit

/-- Unsigned decimal literal: `digits`, `digits.digits`, `digits.` or `.digits`. -/
def parseUnsigned (cs : List Char) : Option ℚ :=
  let ip := cs.takeWhile (· ≠ '.')
  match cs.dropWhile (· ≠ '.') with
  | [] =>
      if allDigits ip ∧ ip ≠ [] then some (digitsToNat ip : ℚ) else none
  | _ :: frac =>
      if frac.contains '.' then none
      else if allDigits ip ∧ allDigits frac ∧ (ip ≠ [] ∨ frac ≠ []) then
        some ((digitsToNat ip : ℚ) + (digitsToNat frac : ℚ) / (10 : ℚ) ^ frac.length)
      else none

/-- Leading and trailing whitespace stripping, on the character list. -/
def trimChars (cs : List Char) : List Char :=
  ((cs.dropWhile Char.isWhitespace).reverse.dropWhile Char.isWhitespace).reverse

/-- Python's `float(s)` on a string: optional sign, decimal literal, surrounding
whitespace stripped (the scientific-notation and `inf`/`nan` forms, which no
claim exercises, are out of the modelled fragment and map to `none`). -/
def parseFloat (s : String) : Option ℚ :=
  match trimChars s.toList with
  | '-' :: rest => (parseUnsigned rest).map (fun q => -q)
  | '+' :: rest => parseUnsigned rest
  | cs => parseUnsigned cs

/-- Python's `float(v)` applied to a request value: numbers pass through, `bool`
coerces to 0/1, strings are parsed, anything else raises `TypeError` (= `none`). -/
def pyFloat : PyVal → Option ℚ
  | .int z => some (z : ℚ)
  | .float q => some q
  | .bool b => some (if b then 1 else 0)
  | .str s => parseFloat s
  | .pynone => none

/-! ### `StressPredictor` fixed data (`predict.py` lines 38-45) -/

/-- `self.feature_names` in `StressPredictor.__init__`. -/
def featureNames : List String :=
  ["heart_rate", "ecg", "emg", "gsr", "resp"]

/-- `self.stress_classes` in `StressPredictor.__init__`. -/
def stressClasses : List String :=
  ["low", "medium", "high"]

/-- A request body: a Python dict from feature name to value. -/
def InputMap : Type := List (String × PyVal)

/-! ### `StressPredictor.validate_input` (`predict.py` lines 86-112) -/

/-- Structured form of the error messages built by `validate_input`:
`"Missing features: […]"`, `"Feature '<f>' must be non-negative"`,
`"Feature '<f>' must be a number"`. -/
inductive ValidationErr where
  | missingFeatures (fs : List String)
  | negativeFeature (f : String)
  | nonNumericFeature (f : String)
deriving DecidableEq, Repr

/-- The feature names an error message mentions. -/
def ValidationErr.names : ValidationErr → List String
  | .missingFeatures fs => fs
  | .negativeFeature f => [f]
  | .nonNumericFeature f => [f]

/-- The `for feature in required_features` loop of `validate_input`: first
non-numeric or negative value wins.  (The `none` lookup arm is unreachable:
the caller has already checked that every feature is present.) -/
def firstInvalid (data : InputMap) : List String → Option ValidationErr
  | [] => none
  | f :: rest =>
    match List.lookup f data with
    | none => some (.nonNumericFeature f)
    | some v =>
      match pyFloat v with
      | none => some (.nonNumericFeature f)
      | some q => if q < 0 then some (.negativeFeature f) else firstInvalid data rest

/-- `StressPredictor.validate_input`: `none` means valid (`(True, "")`);
`some e` carries the error message (`(False, msg)`). -/
def validate_input (data : InputMap) : Option ValidationErr :=
  let missing := featureNames.filter fun f => (List.lookup f data).isNone
  if missing.isEmpty then firstInvalid data featureNames
  else some (.missingFeatures missing)

/-! ### Rounding: Python `round(x, 4)` -/

/-- Round to the nearest integer, ties to the even integer (Python's rounding). -/
def roundHalfEven (q : ℚ) : ℤ :=
  if q - ⌊q⌋ < 1/2 then ⌊q⌋
  else if 1/2 < q - ⌊q⌋ then ⌊q⌋ + 1
  else if ⌊q⌋ % 2 = 0 then ⌊q⌋ else ⌊q⌋ + 1

/-- Python's `round(x, 4)` on the exact-rational embedding of a float. -/
def pyRound4 (q : ℚ) : ℚ :=
  (roundHalfEven (q * 10000) : ℚ) / 10000

/-! ### The model and `StressPredictor.predict` (`predict.py` lines 114-182) -/

/-- The classifier as inference sees it: `model.predict(features)[0]` and
`model.predict_proba(features)[0]`.  The trained artifact is opaque, so the
model is any pair of such functions. -/
structure Model where
  predictIdx : List ℚ → ℕ
  predictProba : List ℚ → List ℚ

/-- Structured form of the `error` strings `predict` can return. -/
inductive PredError where
  | validation (e : ValidationErr)
  | inference (msg : String)
deriving DecidableEq, Repr

/-- The dictionary `predict` returns. -/
structure PredictionResult where
  stress_level : Option String
  confidence : ℚ
  probabilities : Option (List (String × ℚ))
  features_used : Option (List String)
  error : Option PredError
deriving DecidableEq, Repr

/-- Python's `max` on a list (the empty case raises, guarded at the call site). -/
def listMax : List ℚ → ℚ
  | [] => 0
  | x :: xs => xs.foldl max x

/-- The feature vector `predict` hands to the model (`predict.py` lines 151-153):
the raw request values in `feature_names` order, with no further transformation.
(The `getD 0` default is unreachable after successful validation.) -/
def featuresOf (data : InputMap) : List ℚ :=
  featureNames.map fun f => ((List.lookup f data).bind pyFloat).getD 0

/-- `StressPredictor.predict`.  The `try`/`except` around the model call is the
`if` guard: `stress_classes[prediction]` needs `prediction < 3`,
`max(probabilities)` needs a non-empty list, and the probability dict indexes
`stress_classes[i]` for each `i < len(probabilities)`; any violation lands in
the `except` branch. -/
def predict (M : Model) (data : InputMap) : PredictionResult :=
  match validate_input data with
  | some e => ⟨none, 0, none, none, some (.validation e)⟩
  | none =>
    let features := featuresOf data
    let prediction := M.predictIdx features
    let probabilities := M.predictProba features
    if prediction < stressClasses.length ∧ probabilities ≠ [] ∧
        probabilities.length ≤ stressClasses.length then
      ⟨some (stressClasses.getD prediction ""),
       pyRound4 (listMax probabilities),
       some (probabilities.enum.map fun ip => (stressClasses.getD ip.1 "", pyRound4 ip.2)),
       some featureNames,
       none⟩
    else ⟨none, 0, none, none, some (.inference "Prediction failed")⟩

/-- `StressPredictor.batch_predict`: `predict` applied elementwise. -/
def batch_predict (M : Model) (batch : List InputMap) : List PredictionResult :=
  batch.map (predict M)

/-! ### 2-D numpy arrays -/

/-- A rectangular 2-D float array: `ncols` columns, every row that long. -/
structure Mat where
  ncols : ℕ
  rows : List (List ℚ)
  hrect : ∀ r ∈ rows, r.length = ncols

/-- Column `j` of a matrix (`X[:, j]`). -/
def Mat.col (m : Mat) (j : ℕ) : List ℚ :=
  m.rows.map fun r => r.getD j 0

/-! ### `remove_outliers` (`preprocessing.py` lines 98-111) -/

/-- Number of scalar entries of the array (`X.size`). -/
def entryCount (X : List (List ℚ)) : ℕ :=
  (X.map List.length).sum

/-- `X.mean()` — numpy's mean over **all** entries of the 2-D array (the source
passes no `axis` argument, so this is a single scalar, not a per-column mean). -/
def gmean (X : List (List ℚ)) : ℚ :=
  (X.map List.sum).sum / entryCount X

/-- `X.std() ** 2` — numpy's population variance over all entries (again a
single scalar: no `axis` argument). -/
def gvar (X : List (List ℚ)) : ℚ :=
  (X.map fun r => (r.map fun x => (x - gmean X) ^ 2).sum).sum / entryCount X

/-- `remove_outliers(X, threshold)`:
`z_scores = np.abs((X - X.mean()) / X.std()); mask = (z_scores < threshold).all(axis=1); return X[mask]`.

The per-entry test `|x - mean| / std < threshold` (with `std = √var > 0`) is
expressed in exact rational arithmetic as `(x - mean)² < threshold² · var`,
which is equivalent.  When the variance is 0 every entry equals the mean and
numpy produces `0/0 = nan`, so `nan < threshold` is false and the mask is all
false; the conjunct `0 < var` reproduces exactly that. -/
def remove_outliers (X : List (List ℚ)) (threshold : ℚ) : List (List ℚ) :=
  let m := gmean X
  let v := gvar X
  X.filter fun row => row.all fun x => decide (0 < v ∧ (x - m) ^ 2 < threshold ^ 2 * v)

/-! ### `augment_features` (`preprocessing.py` lines 114-145) -/

/-- `ε = 1e-6`, the denominator guard in the derived features. -/
def eps : ℚ := 1 / 1000000

/-- `hr_ecg_ratio = hr / (ecg + 1e-6)` (§3 derived feature). -/
def hr_ecg_ratio (hr ecg : ℚ) : ℚ := hr / (ecg + eps)

/-- `emg_gsr_product = emg * gsr` (§3 derived feature). -/
def emg_gsr_product (emg gsr : ℚ) : ℚ := emg * gsr

/-- `resp_hr_ratio = resp / (hr + 1e-6)` (§3 derived feature). -/
def resp_hr_ratio (resp hr : ℚ) : ℚ := resp / (hr + eps)

/-- The three derived values for one row, read from columns 0-4. -/
def derivedOfRow (r : List ℚ) : List ℚ :=
  [hr_ecg_ratio (r.getD 0 0) (r.getD 1 0),
   emg_gsr_product (r.getD 2 0) (r.getD 3 0),
   resp_hr_ratio (r.getD 4 0) (r.getD 0 0)]

/-- `augment_features(X)`: reads columns `X[:,0] … X[:,4]` — an `IndexError`
(= `none`) when the array has fewer than 5 columns — and column-stacks the
three derived columns onto `X`.  There is no check that `ncols` is exactly 5:
extra columns are carried through unchanged. -/
def augment_features (X : Mat) : Option (List (List ℚ)) :=
  if X.ncols < 5 then none
  else some (X.rows.map fun r => r ++ derivedOfRow r)

/-! ### `handle_missing_values` (`preprocessing.py` lines 75-95)

Missing entries (numpy `NaN`) are embedded as `none`. -/

/-- Column mean skipping missing values (pandas `df.mean()`); `none` when the
column has no present value. -/
def colMeanOpt (c : List (Option ℚ)) : Option ℚ :=
  let vs := c.filterMap id
  if vs.isEmpty then none else some (vs.sum / vs.length)

/-- Column median skipping missing values (pandas `df.median()`): middle of the
sorted present values, or the mean of the two middle ones. -/
def colMedianOpt (c : List (Option ℚ)) : Option ℚ :=
  let vs := (c.filterMap id).mergeSort (fun a b => decide (a ≤ b))
  if vs.isEmpty then none
  else if vs.length % 2 = 1 then some (vs.getD (vs.length / 2) 0)
  else some ((vs.getD (vs.length / 2 - 1) 0 + vs.getD (vs.length / 2) 0) / 2)

/-- The columns of a (rectangular) table of optional values, taking the width
from the first row. -/
def colsOfOpt (X : List (List (Option ℚ))) : List (List (Option ℚ)) :=
  (List.range (X.headD []).length).map fun j => X.map fun r => r.getD j none

/-- `df.fillna(fills)`: replace each missing entry by its column's fill value
(a missing fill value leaves the entry missing, as pandas does). -/
def fillColumns (X : List (List (Option ℚ))) (fills : List (Option ℚ)) :
    List (List (Option ℚ)) :=
  X.map fun r => r.enum.map fun jv => jv.2 <|> fills.getD jv.1 none

/-- `handle_missing_values(X, strategy)`: `'mean'` and `'median'` fill per
column, `'drop'` removes rows with a missing entry, and any other strategy
falls through every branch and returns the data unchanged. -/
def handle_missing_values (X : List (List (Option ℚ))) (strategy : String) :
    List (List (Option ℚ)) :=
  if strategy = "mean" then fillColumns X ((colsOfOpt X).map colMeanOpt)
  else if strategy = "median" then fillColumns X ((colsOfOpt X).map colMedianOpt)
  else if strategy = "drop" then X.filter fun r => r.all Option.isSome
  else X

/-! ### `StandardScaler` and `preprocess_data` (`preprocessing.py` lines 48-72) -/

/-- A fitted `StandardScaler`: per-column `mean_` and `scale_` (= std). -/
structure ScalerParams where
  mean : List ℚ
  scale : List ℚ
deriving DecidableEq, Repr

/-- `scaler.transform(X)` on one row: `(x - mean) / scale` per column. -/
def ScalerParams.transform (p : ScalerParams) (row : List ℚ) : List ℚ :=
  (row.zip (p.mean.zip p.scale)).map fun xms => (xms.1 - xms.2.1) / xms.2.2

/-- Per-column means of a matrix. -/
def colMeans (m : Mat) : List ℚ :=
  (List.range m.ncols).map fun j => (m.col j).sum / m.rows.length

/-- Per-column population variances of a matrix. -/
def colVars (m : Mat) : List ℚ :=
  (List.range m.ncols).map fun j =>
    ((m.col j).map fun x => (x - (m.col j).sum / m.rows.length) ^ 2).sum / m.rows.length

/-- Rational square root: exact whenever the argument is the square of a
rational (numerator and denominator both perfect squares), which holds at
every input this development evaluates a fitted scaler on; on other inputs the
source's floating `sqrt` is irrational and has no exact embedding. -/
def sqrtQ (q : ℚ) : ℚ :=
  (Nat.sqrt q.num.natAbs : ℚ) / (Nat.sqrt q.den : ℚ)

/-- `StandardScaler.fit(X)`: per-column mean and std; a zero-variance column
gets `scale_ = 1` (sklearn's guard against division by zero). -/
def fitScaler (m : Mat) : ScalerParams :=
  ⟨colMeans m, (colVars m).map fun v => if v = 0 then 1 else sqrtQ v⟩

/-- `preprocess_data(X, scaler=None, fit=True)`: with `fit` true the scaler is
(re)fitted on `X` and `fit_transform` is applied; with `fit` false the given
scaler's `transform` is applied — on a `None` scaler that raises sklearn's
`NotFittedError` (= `none`).  **The function returns only the scaled array**:
the `return X_scaled` at line 72 never returns the scaler object. -/
def preprocess_data (m : Mat) (scaler : Option ScalerParams) (fit : Bool) :
    Option (List (List ℚ)) :=
  if fit then some (m.rows.map (fitScaler m).transform)
  else
    match scaler with
    | some p => some (m.rows.map p.transform)
    | none => none

/-! ### Model hyperparameters (`train.py` lines 86-94, `predict.py` lines 73-77) -/

/-- The `RandomForestClassifier` constructor arguments that either call sets. -/
structure RFParams where
  n_estimators : ℕ
  max_depth : Option ℕ
  min_samples_split : ℕ
  min_samples_leaf : ℕ
  random_state : Option ℤ
  n_jobs : Option ℤ
  class_weight : Option String
deriving DecidableEq, Repr

/-- sklearn's defaults for the fields above. -/
def sklearnDefaults : RFParams :=
  ⟨100, none, 2, 1, none, none, none⟩

/-- The classifier built in `ModelTrainer.train` (`train.py` lines 86-94);
`random_state` is the method's default argument 42, as `main` calls it. -/
def trainParams : RFParams :=
  ⟨100, some 15, 5, 2, some 42, some (-1), some "balanced"⟩

/-- The classifier built in `StressPredictor._create_mock_model`
(`predict.py` lines 73-77): only `n_estimators`, `random_state` and `n_jobs`
are passed; everything else is left at the sklearn default. -/
def mockParams : RFParams :=
  ⟨100, none, sklearnDefaults.min_samples_split, sklearnDefaults.min_samples_leaf,
   some 42, some (-1), none⟩

/-- One synthetic mock feature: `np.random.rand()` draws `u` uniform in
`[0, 1)` and `* 100` rescales it (`predict.py` line 80). -/
def mockFeatureEntry (u : ℚ) : ℚ := u * 100

/-- The label pool of `np.random.choice([0, 1, 2], 100)` (`predict.py` line 81). -/
def mockLabelChoices : List ℕ := [0, 1, 2]

/-! ### `ModelTrainer.save_model` (`train.py` lines 163-176) -/

/-- Outcome of the external `pickle.dump`-to-disk call. -/
inductive DiskOutcome where
  | ok
  | ioError (msg : String)
deriving DecidableEq, Repr

/-- The trainer's mutable state: `self.model` and `self.metrics`. -/
structure TrainerState where
  model : Option Model
  metrics : List (String × ℚ)

/-- `ModelTrainer.save_model`: returns `False` with no model; otherwise
attempts the write, returning `True` on success and `False` on a caught
I/O exception.  The returned state is the trainer after the call. -/
def save_model (st : TrainerState) (disk : DiskOutcome) : Bool × TrainerState :=
  match st.model with
  | none => (false, st)
  | some _ =>
    match disk with
    | .ok => (true, st)
    | .ioError _ => (false, st)

/-! ### Derived observations on prediction results -/

/-- The probability values of a prediction result (order of `stress_classes`). -/
def probValues (r : PredictionResult) : List ℚ :=
  (r.probabilities.getD []).map Prod.snd

/-- Sum of the returned probability values. -/
def probSum (r : PredictionResult) : ℚ :=
  (probValues r).sum

/-- Feature `f` is one the validation error may legitimately mention: it is a
required feature that is missing, non-numeric, or negative in `data`. -/
def offending (data : InputMap) (f : String) : Prop :=
  f ∈ featureNames ∧
    (List.lookup f data = none ∨
     ∃ v, List.lookup f data = some v ∧
       (pyFloat v = none ∨ ∃ q, pyFloat v = some q ∧ q < 0))

/-! ### Concrete instances used by the claim theorems -/

/-- The spec §8 example payload `{heart_rate: 75, ecg: 0.5, emg: 0.3, gsr: 0.2, resp: 0.4}`. -/
def data0 : InputMap :=
  [("heart_rate", .int 75), ("ecg", .float (1/2)), ("emg", .float (3/10)),
   ("gsr", .float (1/5)), ("resp", .float (2/5))]

/-- The raw feature vector of `data0` in `feature_names` order. -/
def raw0 : List ℚ := [75, 1/2, 3/10, 1/5, 2/5]

/-- The same payload with coercible values: a numeric string and a boolean. -/
def data9 : InputMap :=
  [("heart_rate", .str "75"), ("ecg", .bool true), ("emg", .float (3/10)),
   ("gsr", .int 0), ("resp", .float (2/5))]

/-- A model with constant output, class 0 with probability 1. -/
def constModel : Model := ⟨fun _ => 0, fun _ => [1, 0, 0]⟩

/-- A model whose three class probabilities are all exactly 1/3. -/
def thirdModel : Model := ⟨fun _ => 0, fun _ => [1/3, 1/3, 1/3]⟩

/-- A probe model that answers class 0 exactly when it is invoked on `target`
and class 2 otherwise — it reveals which feature vector `predict` passes in. -/
def probeModel (target : List ℚ) : Model :=
  ⟨fun v => if v = target then 0 else 2, fun v => if v = target then [1, 0, 0] else [0, 0, 1]⟩

/-- A 2×5 training set whose per-column mean is 1 and variance is 1, so the
fitted scaler is exact in rational arithmetic. -/
def XtrainC : Mat :=
  ⟨5, [[0, 0, 0, 0, 0], [2, 2, 2, 2, 2]], by intro r hr; fin_cases hr <;> rfl⟩

/-- A 2×1 array with column mean 1 and variance 1. -/
def M02 : Mat :=
  ⟨1, [[0], [2]], by intro r hr; fin_cases hr <;> rfl⟩

/-- A single valid 5-column row. -/
def M5 : Mat :=
  ⟨5, [[75, 1/2, 3/10, 1/5, 2/5]], by intro r hr; fin_cases hr <;> rfl⟩

/-- A single 6-column row: one column too many for the fixed feature order. -/
def M6 : Mat :=
  ⟨6, [[1, 2, 3, 4, 5, 6]], by intro r hr; fin_cases hr <;> rfl⟩

/-- Five 2-column rows whose first column is identically 0 (zero variance) and
whose last row carries the single extreme entry 10. -/
def X4 : List (List ℚ) :=
  [[0, 0], [0, 0], [0, 0], [0, 0], [0, 10]]

/-- Modelled from the claim's words for comparison: the trained model's
hyperparameters minus class-balanced weighting. -/
def claimedMockParams : RFParams :=
  ⟨trainParams.n_estimators, trainParams.max_depth, trainParams.min_samples_split,
   trainParams.min_samples_leaf, trainParams.random_state, trainParams.n_jobs, none⟩

/-- A trainer holding a trained model in memory. -/
def trainedState : TrainerState := ⟨some constModel, [("accuracy", 1)]⟩

/-! ## Helper lemmas -/

theorem validate_input_missing (data : InputMap)
    (h : ∃ f ∈ featureNames, List.lookup f data = none) :
    ∃ fs, validate_input data = some (.missingFeatures fs) ∧ fs ≠ [] ∧
      ∀ g ∈ fs, g ∈ featureNames ∧ List.lookup g data = none := by
  unfold validate_input
  set missing := featureNames.filter fun f => (List.lookup f data).isNone with hmiss
  have hne : ¬ missing.isEmpty := by
    obtain ⟨f, hf, hnone⟩ := h
    have hfm : f ∈ missing := List.mem_filter.mpr ⟨hf, by simp [hnone]⟩
    intro he
    rw [List.isEmpty_iff.mp he] at hfm
    exact List.not_mem_nil f hfm
  rw [if_neg hne]
  refine ⟨missing, rfl, ?_, ?_⟩
  · intro h0
    rw [h0] at hne
    exact hne rfl
  · intro g hg
    have hgm := List.mem_filter.mp hg
    exact ⟨hgm.1, Option.isNone_iff_eq_none.mp hgm.2⟩

theorem firstInvalid_bad (data : InputMap) (l : List String)
    (hpres : ∀ f ∈ l, (List.lookup f data).isSome)
    (hbad : ∃ f ∈ l, ∃ v, List.lookup f data = some v ∧
      (pyFloat v = none ∨ ∃ q, pyFloat v = some q ∧ q < 0)) :
    ∃ e, firstInvalid data l = some e ∧ e.names ≠ [] ∧
      ∀ g ∈ e.names, g ∈ l ∧ ∃ v, List.lookup g data = some v ∧
        (pyFloat v = none ∨ ∃ q, pyFloat v = some q ∧ q < 0) := by
  induction l with
  | nil =>
    obtain ⟨f, hf, -⟩ := hbad
    exact absurd hf (List.not_mem_nil f)
  | cons f rest ih =>
    obtain ⟨v, hv⟩ := Option.isSome_iff_exists.mp (hpres f (List.mem_cons_self f rest))
    unfold firstInvalid
    simp only [hv]
    cases hpf : pyFloat v with
    | none =>
      simp only [hpf]
      refine ⟨.nonNumericFeature f, rfl, by simp [ValidationErr.names], ?_⟩
      intro g hg
      simp only [ValidationErr.names, List.mem_singleton] at hg
      subst hg
      exact ⟨List.mem_cons_self g rest, v, hv, Or.inl hpf⟩
    | some q =>
      simp only [hpf]
      by_cases hq : q < 0
      · rw [if_pos hq]
        refine ⟨.negativeFeature f, rfl, by simp [ValidationErr.names], ?_⟩
        intro g hg
        simp only [ValidationErr.names, List.mem_singleton] at hg
        subst hg
        exact ⟨List.mem_cons_self g rest, v, hv, Or.inr ⟨q, hpf, hq⟩⟩
      · rw [if_neg hq]
        have hbad' : ∃ f' ∈ rest, ∃ v', List.lookup f' data = some v' ∧
            (pyFloat v' = none ∨ ∃ q', pyFloat v' = some q' ∧ q' < 0) := by
          obtain ⟨f', hf', v', hv', hbadv⟩ := hbad
          rcases List.mem_cons.mp hf' with rfl | hmem
          · rw [hv] at hv'
            injection hv' with hveq
            subst hveq
            rcases hbadv with hnone | ⟨q', hq', hlt⟩
            · rw [hpf] at hnone
              exact absurd hnone (by simp)
            · rw [hpf] at hq'
              injection hq' with hqeq
              subst hqeq
              exact absurd hlt hq
          · exact ⟨f', hmem, v', hv', hbadv⟩
        obtain ⟨e, he, hne, hprop⟩ :=
          ih (fun g hg => hpres g (List.mem_cons_of_mem f hg)) hbad'
        exact ⟨e, he, hne, fun g hg =>
          ⟨List.mem_cons_of_mem f (hprop g hg).1, (hprop g hg).2⟩⟩

theorem firstInvalid_ok (data : InputMap) (l : List String)
    (hl : ∀ f ∈ l, ∃ v q, List.lookup f data = some v ∧ pyFloat v = some q ∧ 0 ≤ q) :
    firstInvalid data l = none := by
  induction l with
  | nil => rfl
  | cons f rest ih =>
    obtain ⟨v, q, hv, hq, hq0⟩ := hl f (List.mem_cons_self f rest)
    unfold firstInvalid
    simp only [hv, hq]
    rw [if_neg (not_lt.mpr hq0)]
    exact ih fun g hg => hl g (List.mem_cons_of_mem f hg)

theorem validate_input_none (data : InputMap)
    (hall : ∀ f ∈ featureNames,
      ∃ v q, List.lookup f data = some v ∧ pyFloat v = some q ∧ 0 ≤ q) :
    validate_input data = none := by
  unfold validate_input
  have hmiss : (featureNames.filter fun f => (List.lookup f data).isNone).isEmpty := by
    rw [List.isEmpty_iff, List.filter_eq_nil]
    intro f hf
    obtain ⟨v, q, hv, -, -⟩ := hall f hf
    simp [hv]
  rw [if_pos hmiss]
  exact firstInvalid_ok data featureNames hall

theorem predict_eq_of_valid (M : Model) (data : InputMap)
    (hval : validate_input data = none)
    (hidx : M.predictIdx (featuresOf data) < 3)
    (hne : M.predictProba (featuresOf data) ≠ [])
    (hlen : (M.predictProba (featuresOf data)).length ≤ 3) :
    predict M data =
      ⟨some (stressClasses.getD (M.predictIdx (featuresOf data)) ""),
       pyRound4 (listMax (M.predictProba (featuresOf data))),
       some ((M.predictProba (featuresOf data)).enum.map
         fun ip => (stressClasses.getD ip.1 "", pyRound4 ip.2)),
       some featureNames, none⟩ := by
  have hcls : stressClasses.length = 3 := rfl
  unfold predict
  simp only [hval]
  rw [if_pos ⟨by rw [hcls]; exact hidx, hne, by rw [hcls]; exact hlen⟩]

theorem roundHalfEven_bounds (q : ℚ) :
    ⌊q⌋ ≤ roundHalfEven q ∧ roundHalfEven q ≤ ⌊q⌋ + 1 := by
  unfold roundHalfEven
  split_ifs <;> omega

theorem abs_roundHalfEven_sub (q : ℚ) : |(roundHalfEven q : ℚ) - q| ≤ 1/2 := by
  have h1 := Int.floor_le q
  have h2 := Int.lt_floor_add_one q
  unfold roundHalfEven
  split_ifs with ha hb hc
  · rw [abs_le]
    constructor <;> linarith
  · rw [abs_le]
    push_cast
    constructor <;> linarith
  · rw [abs_le]
    constructor <;> linarith
  · rw [abs_le]
    push_cast
    constructor <;> linarith

theorem abs_pyRound4_sub (q : ℚ) : |pyRound4 q - q| ≤ 1/20000 := by
  unfold pyRound4
  have h := abs_roundHalfEven_sub (q * 10000)
  have heq : (roundHalfEven (q * 10000) : ℚ) / 10000 - q =
      ((roundHalfEven (q * 10000) : ℚ) - q * 10000) / 10000 := by ring
  rw [heq, abs_div]
  rw [show |(10000 : ℚ)| = 10000 from by norm_num]
  rw [div_le_div_iff (by norm_num) (by norm_num)]
  linarith

theorem sum_map_pyRound4_close (l : List ℚ) :
    |(l.map pyRound4).sum - l.sum| ≤ l.length * (1/20000) := by
  induction l with
  | nil => simp
  | cons x xs ih =>
    simp only [List.map_cons, List.sum_cons, List.length_cons]
    have hx := abs_pyRound4_sub x
    have step : |pyRound4 x + (xs.map pyRound4).sum - (x + xs.sum)| ≤
        |pyRound4 x - x| + |(xs.map pyRound4).sum - xs.sum| := by
      have harr : pyRound4 x + (xs.map pyRound4).sum - (x + xs.sum) =
          (pyRound4 x - x) + ((xs.map pyRound4).sum - xs.sum) := by ring
      rw [harr]
      exact abs_add _ _
    have hlen : ((xs.length + 1 : ℕ) : ℚ) = (xs.length : ℚ) + 1 := by push_cast; ring
    rw [hlen]
    calc |pyRound4 x + (xs.map pyRound4).sum - (x + xs.sum)|
        ≤ |pyRound4 x - x| + |(xs.map pyRound4).sum - xs.sum| := step
      _ ≤ 1/20000 + xs.length * (1/20000) := add_le_add hx ih
      _ = ((xs.length : ℚ) + 1) * (1/20000) := by ring

theorem roundHalfEven_mono {a b : ℚ} (hab : a ≤ b) :
    roundHalfEven a ≤ roundHalfEven b := by
  have hf : ⌊a⌋ ≤ ⌊b⌋ := Int.floor_le_floor hab
  rcases eq_or_lt_of_le hf with heq | hlt
  · unfold roundHalfEven
    rw [← heq]
    have hr : a - ⌊a⌋ ≤ b - ⌊a⌋ := by linarith
    split_ifs <;> first | omega | (exfalso; linarith)
  · have h1 := (roundHalfEven_bounds a).2
    have h2 := (roundHalfEven_bounds b).1
    omega

theorem pyRound4_mono : Monotone pyRound4 := by
  intro a b hab
  unfold pyRound4
  have h : roundHalfEven (a * 10000) ≤ roundHalfEven (b * 10000) :=
    roundHalfEven_mono (by linarith)
  have hq : (roundHalfEven (a * 10000) : ℚ) ≤ (roundHalfEven (b * 10000) : ℚ) := by
    exact_mod_cast h
  exact (div_le_div_right (by norm_num)).mpr hq

theorem listMax_map_mono (f : ℚ → ℚ) (hf : Monotone f) (l : List ℚ) (hl : l ≠ []) :
    listMax (l.map f) = f (listMax l) := by
  match l with
  | x :: xs =>
    suffices hgen : ∀ (a : ℚ) (ys : List ℚ), (ys.map f).foldl max (f a) = f (ys.foldl max a) by
      simpa [listMax] using hgen x xs
    intro a ys
    induction ys generalizing a with
    | nil => simp
    | cons y ys ihy =>
      simp only [List.map_cons, List.foldl_cons]
      rw [← hf.map_max]
      exact ihy (max a y)

theorem probValues_of_success (l : List ℚ) :
    ((l.enum.map fun ip => (stressClasses.getD ip.1 "", pyRound4 ip.2)).map Prod.snd) =
      l.map pyRound4 := by
  rw [List.map_map]
  have hcomp : (Prod.snd ∘ fun ip : ℕ × ℚ => (stressClasses.getD ip.1 "", pyRound4 ip.2)) =
      pyRound4 ∘ Prod.snd := rfl
  rw [hcomp, ← List.map_map, List.enum_map_snd]

theorem data0_valid : validate_input data0 = none := by
  simp [validate_input, firstInvalid, featureNames, pyFloat, data0, List.lookup]
  norm_num

theorem featuresOf_data0 : featuresOf data0 = raw0 := by
  simp [featuresOf, featureNames, pyFloat, data0, raw0, List.lookup]

/-! ## Claim theorems -/

/-- **C10**: `handle_missing_values` called with any strategy outside
`{mean, median, drop}` silently returns the input data unchanged (same shape
and values, no error raised) rather than rejecting the unknown strategy. -/
theorem handle_missing_unknown_strategy (X : List (List (Option ℚ))) (s : String)
    (h1 : s ≠ "mean") (h2 : s ≠ "median") (h3 : s ≠ "drop") :
    handle_missing_values X s = X := by
  unfold handle_missing_values
  rw [if_neg h1, if_neg h2, if_neg h3]

/-- **C10** witness: the unknown strategy `"mode"` leaves a table with missing
entries exactly as it was. -/
theorem handle_missing_unknown_strategy_witness :
    "mode" ≠ "mean" ∧ "mode" ≠ "median" ∧ "mode" ≠ "drop" ∧
    handle_missing_values [[some 1, none], [none, some 2]] "mode" =
      [[some 1, none], [none, some 2]] :=
  ⟨by decide, by decide, by decide,
   handle_missing_unknown_strategy _ _ (by decide) (by decide) (by decide)⟩

/-- **C8**: `save_model` on an I/O failure returns the failure signal (`False`,
the spec's `PersistError`) and is non-fatal: the trainer state, in particular
the trained model held in memory, is returned unchanged. -/
theorem save_model_io_failure_preserves_state (st : TrainerState) (msg : String)
    (h : st.model.isSome) :
    save_model st (.ioError msg) = (false, st) := by
  obtain ⟨m, hm⟩ := Option.isSome_iff_exists.mp h
  unfold save_model
  rw [hm]

/-- **C8** witness: a trainer with a trained model hits a disk error; saving
reports failure and the model is still there. -/
theorem save_model_io_failure_witness :
    trainedState.model.isSome ∧
    save_model trainedState (.ioError "disk full") = (false, trainedState) :=
  ⟨rfl, save_model_io_failure_preserves_state trainedState "disk full" rfl⟩

/-- **C7** (code behavior at the failing input): `preprocess_data` with
`fit=True` returns **only** the scaled array — the fitted `StandardScaler`
(mean 1, std 1 for the column `[0, 2]`) is computed but never returned,
contradicting the function's own docstring; with `fit=False` it applies the
given parameters without recomputing them (pure, hence idempotent). -/
theorem preprocess_data_returns_only_scaled_array :
    preprocess_data M02 none true = some [[-1], [1]] ∧
    fitScaler M02 = ⟨[1], [1]⟩ ∧
    ∀ (m : Mat) (p : ScalerParams),
      preprocess_data m (some p) false = some (m.rows.map p.transform) := by
  have hfit : fitScaler M02 = ⟨[1], [1]⟩ := by
    unfold fitScaler colMeans colVars Mat.col M02
    norm_num [sqrtQ, Rat.num_one, Rat.den_one, List.range_succ, Nat.sqrt_one]
  refine ⟨?_, hfit, fun m p => rfl⟩
  unfold preprocess_data
  rw [if_pos rfl, hfit]
  norm_num [ScalerParams.transform, M02]

/-- **C5** counterexample: the mock model's constructor arguments are **not**
the trained model's hyperparameters minus class weighting — `max_depth`,
`min_samples_split` and `min_samples_leaf` are sklearn defaults, not 15/5/2. -/
theorem mockParams_ne_claimed : mockParams ≠ claimedMockParams := by decide

/-- **C5** (amended): the mock model shares `n_estimators=100`,
`random_state=42` and `n_jobs=-1` with the trained model but leaves
`max_depth`, `min_samples_split`, `min_samples_leaf` and `class_weight` at
sklearn defaults; its synthetic features are uniform in [0,100) and its labels
are drawn from the 3 classes. -/
theorem mock_model_config :
    mockParams = ⟨trainParams.n_estimators, sklearnDefaults.max_depth,
      sklearnDefaults.min_samples_split, sklearnDefaults.min_samples_leaf,
      trainParams.random_state, trainParams.n_jobs, sklearnDefaults.class_weight⟩ ∧
    (∀ u : ℚ, 0 ≤ u → u < 1 → 0 ≤ mockFeatureEntry u ∧ mockFeatureEntry u < 100) ∧
    mockLabelChoices.length = 3 := by
  refine ⟨by decide, fun u h0 h1 => ⟨?_, ?_⟩, rfl⟩
  · exact mul_nonneg h0 (by norm_num)
  · unfold mockFeatureEntry
    linarith

/-- **C5** witness: a uniform draw of 1/2 lands the synthetic feature at 50,
inside [0, 100). -/
theorem mock_model_config_witness :
    0 ≤ (1/2 : ℚ) ∧ (1/2 : ℚ) < 1 ∧
    0 ≤ mockFeatureEntry (1/2) ∧ mockFeatureEntry (1/2) < 100 :=
  ⟨by norm_num, by norm_num,
   (mock_model_config.2.1 (1/2) (by norm_num) (by norm_num)).1,
   (mock_model_config.2.1 (1/2) (by norm_num) (by norm_num)).2⟩

/-- **C6** counterexample: on a 6-column input (not exactly 5 columns)
`augment_features` succeeds instead of failing with a shape error. -/
theorem augment_six_columns_succeeds :
    M6.ncols ≠ 5 ∧ (augment_features M6).isSome = true :=
  ⟨by decide, rfl⟩

/-- **C6** (amended): `augment_features` fails (numpy `IndexError`, not a
`ShapeError`) exactly when the input has fewer than 5 columns; with 5 or more
columns it deterministically appends the 3 derived columns of §3, computed
from the first five columns, so every output row is 3 entries longer. -/
theorem augment_features_shape (X : Mat) :
    (X.ncols < 5 → augment_features X = none) ∧
    (5 ≤ X.ncols →
      augment_features X = some (X.rows.map fun r => r ++ derivedOfRow r) ∧
      ∀ y ∈ X.rows.map (fun r => r ++ derivedOfRow r), y.length = X.ncols + 3) := by
  constructor
  · intro h
    unfold augment_features
    rw [if_pos h]
  · intro h
    refine ⟨?_, ?_⟩
    · unfold augment_features
      rw [if_neg (Nat.not_lt.mpr h)]
    · intro y hy
      obtain ⟨r, hr, rfl⟩ := List.mem_map.mp hy
      have hlen := X.hrect r hr
      simp [derivedOfRow, hlen]

/-- **C6** witness: on the valid 5-column row the three derived columns are
appended. -/
theorem augment_features_shape_witness :
    5 ≤ M5.ncols ∧
    augment_features M5 = some (M5.rows.map fun r => r ++ derivedOfRow r) :=
  ⟨by decide, ((augment_features_shape M5).2 (by decide)).1⟩

/-- **C4** counterexample: `X4` has a zero-variance column (its first column is
identically 0), yet `remove_outliers` drops its last row instead of returning
all rows: the z-scores are computed from the global mean/std of the whole
array, not per column, and the entry 10 is exactly 3 global stds out. -/
theorem remove_outliers_zero_variance_column_drops_row :
    (X4.map fun r => r.getD 0 0) = [0, 0, 0, 0, 0] ∧
    remove_outliers X4 3 = [[0, 0], [0, 0], [0, 0], [0, 0]] ∧
    remove_outliers X4 3 ≠ X4 := by
  have hm : gmean X4 = 1 := by
    simp [gmean, X4, entryCount]
  have hv : gvar X4 = 9 := by
    unfold gvar
    rw [hm]
    simp [X4, entryCount]
    norm_num
  have hro : remove_outliers X4 3 = [[0, 0], [0, 0], [0, 0], [0, 0]] := by
    simp only [remove_outliers]
    rw [hm, hv]
    simp [X4, List.filter]
    norm_num
  refine ⟨by simp [X4], hro, ?_⟩
  rw [hro]
  intro h
  have hlen := congrArg List.length h
  simp [X4] at hlen

/-- **C4** (amended): `remove_outliers` computes z-scores `(x - mean)/std`
from the **global** mean and standard deviation of all entries of the array
(numpy `X.mean()`/`X.std()` with no axis), not per column; a row is kept
exactly when every one of its entries has global z-score absolute value below
the threshold.  It never raises — but a zero-variance column does not shield
rows from removal, and when the whole array has zero variance every non-empty
row is removed (numpy's `0/0 = nan` comparison is false). -/
theorem remove_outliers_global_zscore (X : List (List ℚ)) (t : ℚ) (ht : 0 < t) :
    (0 < gvar X →
      ∀ row, row ∈ remove_outliers X t ↔
        row ∈ X ∧ ∀ x ∈ row,
          |(x : ℝ) - (gmean X : ℝ)| / Real.sqrt (gvar X : ℝ) < (t : ℝ)) ∧
    (gvar X = 0 → ∀ row ∈ X, row ≠ [] → row ∉ remove_outliers X t) := by
  constructor
  · intro hv row
    simp only [remove_outliers, List.mem_filter, List.all_eq_true, decide_eq_true_eq]
    refine and_congr_right fun _ => forall_congr' fun x => forall_congr' fun _ => ?_
    have hvR : (0 : ℝ) < (gvar X : ℝ) := by exact_mod_cast hv
    have hs : (0 : ℝ) < Real.sqrt (gvar X : ℝ) := Real.sqrt_pos.mpr hvR
    have htR : (0 : ℝ) < (t : ℝ) := by exact_mod_cast ht
    rw [div_lt_iff hs]
    have hmul : (t : ℝ) * Real.sqrt (gvar X : ℝ) =
        Real.sqrt ((t : ℝ) ^ 2 * (gvar X : ℝ)) := by
      rw [Real.sqrt_mul (sq_nonneg _), Real.sqrt_sq htR.le]
    rw [hmul, Real.lt_sqrt (abs_nonneg _), sq_abs]
    constructor
    · rintro ⟨-, hlt⟩
      exact_mod_cast hlt
    · intro hlt
      exact ⟨hv, by exact_mod_cast hlt⟩
  · intro hv0 row hrow hne hmem
    simp only [remove_outliers, List.mem_filter, List.all_eq_true, decide_eq_true_eq] at hmem
    obtain ⟨x, hx⟩ := List.exists_mem_of_ne_nil row hne
    have := (hmem.2 x hx).1
    rw [hv0] at this
    exact lt_irrefl 0 this

/-- **C4** witness: on the all-constant array `[[5],[5]]` (variance 0) the
amended theorem applies — no row survives, and no exception is modelled. -/
theorem remove_outliers_global_zscore_witness :
    0 < (3 : ℚ) ∧ gvar [[(5 : ℚ)], [5]] = 0 ∧
    [(5 : ℚ)] ∉ remove_outliers [[(5 : ℚ)], [5]] 3 := by
  have hz : gvar [[(5 : ℚ)], [5]] = 0 := by
    have hm5 : gmean [[(5 : ℚ)], [5]] = 5 := by
      simp [gmean, entryCount]
    unfold gvar
    rw [hm5]
    simp [entryCount]
  exact ⟨by norm_num, hz,
    (remove_outliers_global_zscore _ 3 (by norm_num)).2 hz _ (by simp) (by simp)⟩

/-- **C3** counterexample: a model answering exact probabilities (1/3, 1/3, 1/3)
— which sum to exactly 1 — yields returned probabilities 0.3333 each after the
4-digit rounding, whose sum 0.9999 misses 1.0 by 1e-4 > 1e-6. -/
theorem rounded_probabilities_break_tolerance :
    validate_input data0 = none ∧
    (thirdModel.predictProba (featuresOf data0)).sum = 1 ∧
    1/1000000 < |probSum (predict thirdModel data0) - 1| := by
  refine ⟨data0_valid, by norm_num [thirdModel], ?_⟩
  rw [predict_eq_of_valid thirdModel data0 data0_valid (by norm_num [thirdModel])
    (by simp [thirdModel]) (by simp [thirdModel])]
  unfold probSum probValues
  simp only [Option.getD_some]
  rw [probValues_of_success]
  have h13 : pyRound4 (1/3) = 3333/10000 := by
    norm_num [pyRound4, roundHalfEven]
  simp only [thirdModel, List.map_cons, List.map_nil, List.sum_cons, List.sum_nil]
  rw [h13, lt_abs]
  right
  norm_num

/-- **C3** (amended): for every valid input and every model whose probability
vector has 3 entries summing to exactly 1, the **raw** probabilities sum to 1
but the **returned** (4-digit-rounded) probabilities sum to 1.0 only within
1.5e-4 (3 entries × half of 1e-4), not within 1e-6; the returned confidence
does equal the maximum of the returned probability values (rounding is
monotone). -/
theorem predict_probSum_and_confidence (M : Model) (data : InputMap)
    (hval : validate_input data = none)
    (hlen : (M.predictProba (featuresOf data)).length = 3)
    (hsum : (M.predictProba (featuresOf data)).sum = 1)
    (hidx : M.predictIdx (featuresOf data) < 3) :
    |probSum (predict M data) - 1| ≤ 3/20000 ∧
    (predict M data).confidence = listMax (probValues (predict M data)) := by
  have hne : M.predictProba (featuresOf data) ≠ [] := by
    intro h
    rw [h] at hlen
    simp at hlen
  rw [predict_eq_of_valid M data hval hidx hne (le_of_eq hlen)]
  unfold probSum probValues
  simp only [Option.getD_some]
  rw [probValues_of_success]
  constructor
  · have hclose := sum_map_pyRound4_close (M.predictProba (featuresOf data))
    rw [hlen, hsum] at hclose
    have h3 : ((3 : ℕ) : ℚ) * (1/20000) = 3/20000 := by norm_num
    rw [h3] at hclose
    exact hclose
  · exact (listMax_map_mono pyRound4 pyRound4_mono _ hne).symm

/-- **C3** witness: the amended theorem applied to the all-1/3 model at the
spec's example payload. -/
theorem predict_probSum_and_confidence_witness :
    validate_input data0 = none ∧
    (thirdModel.predictProba (featuresOf data0)).length = 3 ∧
    (thirdModel.predictProba (featuresOf data0)).sum = 1 ∧
    thirdModel.predictIdx (featuresOf data0) < 3 ∧
    (|probSum (predict thirdModel data0) - 1| ≤ 3/20000 ∧
     (predict thirdModel data0).confidence =
       listMax (probValues (predict thirdModel data0))) :=
  ⟨data0_valid, rfl, by norm_num [thirdModel], by norm_num [thirdModel],
   predict_probSum_and_confidence thirdModel data0 data0_valid rfl
     (by norm_num [thirdModel]) (by norm_num [thirdModel])⟩

/-- **C2**: for every input mapping that is missing any of the 5 required
feature keys, or in which some present value is negative or not convertible to
a number, `predict` returns a validation error naming only genuinely
missing/offending features (and at least one), with `stress_level = none` and
`confidence = 0`; the embedding is total, so no exception escapes. -/
theorem predict_invalid_input_error (M : Model) (data : InputMap)
    (h : ∃ f ∈ featureNames,
      List.lookup f data = none ∨
      ∃ v, List.lookup f data = some v ∧
        (pyFloat v = none ∨ ∃ q, pyFloat v = some q ∧ q < 0)) :
    ∃ e, (predict M data).error = some (.validation e) ∧ e.names ≠ [] ∧
      (∀ g ∈ e.names, offending data g) ∧
      (predict M data).stress_level = none ∧ (predict M data).confidence = 0 := by
  have hsome : ∃ e, validate_input data = some e ∧ e.names ≠ [] ∧
      ∀ g ∈ e.names, offending data g := by
    by_cases hm : ∃ f ∈ featureNames, List.lookup f data = none
    · obtain ⟨fs, hfs, hne, hprop⟩ := validate_input_missing data hm
      refine ⟨.missingFeatures fs, hfs, ?_, ?_⟩
      · simpa [ValidationErr.names] using hne
      · intro g hg
        simp only [ValidationErr.names] at hg
        exact ⟨(hprop g hg).1, Or.inl (hprop g hg).2⟩
    · push_neg at hm
      have hpres : ∀ f ∈ featureNames, (List.lookup f data).isSome := by
        intro f hf
        cases hl : List.lookup f data with
        | none => exact absurd hl (hm f hf)
        | some v => simp
      have hbad : ∃ f ∈ featureNames, ∃ v, List.lookup f data = some v ∧
          (pyFloat v = none ∨ ∃ q, pyFloat v = some q ∧ q < 0) := by
        obtain ⟨f, hf, hcase⟩ := h
        rcases hcase with hnone | hbadv
        · exact absurd hnone (hm f hf)
        · exact ⟨f, hf, hbadv⟩
      obtain ⟨e, he, hne, hprop⟩ := firstInvalid_bad data featureNames hpres hbad
      have hvi : validate_input data = some e := by
        unfold validate_input
        have hfil : (featureNames.filter fun f => (List.lookup f data).isNone).isEmpty := by
          rw [List.isEmpty_iff, List.filter_eq_nil]
          intro f hf
          obtain ⟨v, hv⟩ := Option.isSome_iff_exists.mp (hpres f hf)
          simp [hv]
        rw [if_pos hfil]
        exact he
      exact ⟨e, hvi, hne, fun g hg => ⟨(hprop g hg).1, Or.inr (hprop g hg).2⟩⟩
  obtain ⟨e, he, hne, hprop⟩ := hsome
  refine ⟨e, ?_, hne, hprop, ?_, ?_⟩ <;> simp [predict, he]

/-- **C2** witness: a request carrying only `heart_rate` is rejected with a
validation error, null stress level and zero confidence. -/
theorem predict_invalid_input_error_witness :
    (∃ f ∈ featureNames,
      List.lookup f [("heart_rate", PyVal.int 75)] = none ∨
      ∃ v, List.lookup f [("heart_rate", PyVal.int 75)] = some v ∧
        (pyFloat v = none ∨ ∃ q, pyFloat v = some q ∧ q < 0)) ∧
    ∃ e, (predict constModel [("heart_rate", PyVal.int 75)]).error =
        some (.validation e) ∧ e.names ≠ [] ∧
      (∀ g ∈ e.names, offending [("heart_rate", PyVal.int 75)] g) ∧
      (predict constModel [("heart_rate", PyVal.int 75)]).stress_level = none ∧
      (predict constModel [("heart_rate", PyVal.int 75)]).confidence = 0 :=
  ⟨⟨"ecg", by decide, Or.inl rfl⟩,
   predict_invalid_input_error constModel _ ⟨"ecg", by decide, Or.inl rfl⟩⟩

/-- **C9**: validation coerces rather than type-checks — for every input whose
5 required values all convert through Python `float()` to a non-negative
number (booleans and numeric strings included), `validate_input` succeeds and
`predict` produces a prediction (populated `stress_level`, no error). -/
theorem predict_coerces_values (M : Model) (data : InputMap)
    (hall : ∀ f ∈ featureNames,
      ∃ v q, List.lookup f data = some v ∧ pyFloat v = some q ∧ 0 ≤ q)
    (hidx : M.predictIdx (featuresOf data) < 3)
    (hlen : (M.predictProba (featuresOf data)).length = 3) :
    validate_input data = none ∧
    (predict M data).error = none ∧ (predict M data).stress_level.isSome := by
  have hval := validate_input_none data hall
  have hne : M.predictProba (featuresOf data) ≠ [] := by
    intro h
    rw [h] at hlen
    simp at hlen
  rw [predict_eq_of_valid M data hval hidx hne (le_of_eq hlen)]
  exact ⟨hval, rfl, rfl⟩

/-- **C9** witness: a payload with the numeric string `"75"` and the boolean
`True` passes validation and gets a prediction. -/
theorem predict_coerces_values_witness :
    (∀ f ∈ featureNames,
      ∃ v q, List.lookup f data9 = some v ∧ pyFloat v = some q ∧ 0 ≤ q) ∧
    validate_input data9 = none ∧
    (predict constModel data9).error = none ∧
    (predict constModel data9).stress_level.isSome := by
  have hall : ∀ f ∈ featureNames,
      ∃ v q, List.lookup f data9 = some v ∧ pyFloat v = some q ∧ 0 ≤ q := by
    intro f hf
    fin_cases hf
    · exact ⟨.str "75", _, rfl, rfl, Nat.cast_nonneg _⟩
    · exact ⟨.bool true, 1, rfl, rfl, by norm_num⟩
    · exact ⟨.float (3/10), 3/10, rfl, rfl, by norm_num⟩
    · exact ⟨.int 0, (0 : ℤ), rfl, rfl, by norm_num⟩
    · exact ⟨.float (2/5), 2/5, rfl, rfl, by norm_num⟩
  exact ⟨hall, predict_coerces_values constModel data9 hall (by decide) rfl⟩

/-- **C1** (code behavior at the failing input): training standardizes the
data with a fitted scaler (`preprocess_data` in `train.main`), but inference
passes the **raw** request values to the model: the probe model that
recognises exactly the raw vector fires (class "low"), while the probe that
recognises the scaler-transformed vector does not (class "high"), and the two
vectors differ. -/
theorem inference_skips_training_scaler :
    preprocess_data XtrainC none true =
      some (XtrainC.rows.map (fitScaler XtrainC).transform) ∧
    (fitScaler XtrainC).transform raw0 ≠ raw0 ∧
    featuresOf data0 = raw0 ∧
    (predict (probeModel raw0) data0).stress_level = some "low" ∧
    (predict (probeModel ((fitScaler XtrainC).transform raw0)) data0).stress_level =
      some "high" := by
  have hfit : fitScaler XtrainC = ⟨[1, 1, 1, 1, 1], [1, 1, 1, 1, 1]⟩ := by
    unfold fitScaler colMeans colVars Mat.col XtrainC
    norm_num [sqrtQ, Rat.num_one, Rat.den_one, Nat.sqrt_one, List.range_succ]
  have htr : (fitScaler XtrainC).transform raw0 = [74, -1/2, -7/10, -4/5, -3/5] := by
    rw [hfit]
    simp [ScalerParams.transform, raw0]
    norm_num
  have hneq : (fitScaler XtrainC).transform raw0 ≠ raw0 := by
    rw [htr]
    intro h
    rw [raw0] at h
    simp at h
  refine ⟨rfl, hneq, featuresOf_data0, ?_, ?_⟩
  · rw [predict_eq_of_valid (probeModel raw0) data0 data0_valid
      (by rw [featuresOf_data0]; simp [probeModel])
      (by rw [featuresOf_data0]; simp [probeModel])
      (by rw [featuresOf_data0]; simp [probeModel])]
    rw [featuresOf_data0]
    simp [probeModel, stressClasses]
  · rw [predict_eq_of_valid (probeModel ((fitScaler XtrainC).transform raw0)) data0
      data0_valid
      (by rw [featuresOf_data0]; simp [probeModel, Ne.symm hneq])
      (by rw [featuresOf_data0]; simp [probeModel, Ne.symm hneq])
      (by rw [featuresOf_data0]; simp [probeModel, Ne.symm hneq])]
    rw [featuresOf_data0]
    simp [probeModel, Ne.symm hneq, stressClasses]

end Swaraj
